import Mathlib

/-!
Shallow embedding of `src/common/reports/report_service.go` (package `reports`)
and verification of its specification.

The Go code builds a `Report` from a `TagChangeAccumulator` (an external
collaborator), serializes it with `json.MarshalIndent`, and renders it.
Machine integers (`int`) are modelled as `Int`; Go slices as Lean lists
(the builder always assigns fresh non-nil slices, so the nil/empty
distinction does not arise for the fields we analyse); Go byte slices
holding UTF-8 JSON text as `String`.
-/

/-- A tag attached to a block, as the `tags.ITag` interface exposes it:
`GetKey()` and `GetValue()`. The accumulator's block types are external to
the file under analysis, so a tag is modelled by its two observations. -/
structure Tag where
  key : String
  value : String
  deriving DecidableEq

def Tag.GetKey (t : Tag) : String := t.key

def Tag.GetValue (t : Tag) : String := t.value

/-- One entry of `diff.Updated`: a struct with fields `Key`, `PrevValue`,
`NewValue` (accessed directly, no getters, in the source). -/
structure UpdatedTagEntry where
  Key : String
  PrevValue : String
  NewValue : String
  deriving DecidableEq

/-- The value returned by `block.CalculateTagsDiff()`: two slices,
`Added` (tags newly added this pass) and `Updated` (value changes). -/
structure TagDiff where
  Added : List Tag
  Updated : List UpdatedTagEntry
  deriving DecidableEq

/-- Modelled from the spec: a block handle of the external accumulator.
The source file only calls `GetFilePath()`, `GetResourceID()`,
`GetTraceID()`, `GetNewTags()` and `CalculateTagsDiff()` on it (spec §6),
so a block is modelled as the record of those observations.
`CalculateTagsDiff` returns a fresh data-only diff value on each call
(spec §9: "a data-only variant type returned by the diff operation"). -/
structure Block where
  filePath : String
  resourceID : String
  traceID : String
  newTags : List Tag
  tagsDiff : TagDiff
  deriving DecidableEq

def Block.GetFilePath (b : Block) : String := b.filePath

def Block.GetResourceID (b : Block) : String := b.resourceID

def Block.GetTraceID (b : Block) : String := b.traceID

def Block.GetNewTags (b : Block) : List Tag := b.newTags

/-- Modelled from the spec: `CalculateTagsDiff()` is implemented by the
external accumulator component (not in the file under analysis); spec §6
says it returns `{Added, Updated}` and §9 that the result is a fresh
data-only value, so it is modelled as a pure observation of the block. -/
def Block.CalculateTagsDiff (b : Block) : TagDiff := b.tagsDiff

/-- Modelled from the spec: the external accumulator's exported state,
`ScannedBlocks`, `NewBlockTraces`, `UpdatedBlockTraces` (spec §6). -/
structure TagChangeAccumulator where
  ScannedBlocks : List Block
  NewBlockTraces : List Block
  UpdatedBlockTraces : List Block
  deriving DecidableEq

/-- `ReportSummary` struct: three Go `int` counters. -/
structure ReportSummary where
  Scanned : Int
  NewResources : Int
  UpdatedResources : Int
  deriving DecidableEq

/-- `TagRecord` struct: six string fields. -/
structure TagRecord where
  File : String
  ResourceID : String
  TagKey : String
  OldValue : String
  UpdatedValue : String
  YorTraceID : String
  deriving DecidableEq

/-- `Report` struct: summary plus the two record sequences. -/
structure Report where
  Summary : ReportSummary
  NewResourceTags : List TagRecord
  UpdatedResourceTags : List TagRecord
  deriving DecidableEq

/-- `ReportService` holds the process-wide current report. -/
structure ReportService where
  report : Report
  deriving DecidableEq

/-- `sort.SliceStable(diff.Added, func(i, j) { Added[i].GetKey() < Added[j].GetKey() })`:
a stable sort by strict key order. A stable sort's output is the unique
permutation that is sorted for the reflexive closure of the comparator and
keeps ties in input order, which is exactly stable insertion sort with
`a.GetKey ≤ b.GetKey` (Go compares strings lexicographically; UTF-8 byte
order agrees with code-point order, which is Lean's `String` order). -/
def sortAddedByKey (l : List Tag) : List Tag :=
  l.insertionSort (fun a b => a.GetKey ≤ b.GetKey)

/-- `sort.SliceStable(diff.Updated, func(i, j) { Updated[i].Key < Updated[j].Key })`,
modelled like `sortAddedByKey`. -/
def sortUpdatedByKey (l : List UpdatedTagEntry) : List UpdatedTagEntry :=
  l.insertionSort (fun a b => a.Key ≤ b.Key)

/-- The records the first loop of `CreateReport` appends for one block of
`NewBlockTraces`: one per tag of `block.GetNewTags()`, in enumeration
order (no sort), with `OldValue: ""`. -/
def newBlockRecords (block : Block) : List TagRecord :=
  block.GetNewTags.map fun tag =>
    { File := block.GetFilePath
      ResourceID := block.GetResourceID
      TagKey := tag.GetKey
      OldValue := ""
      UpdatedValue := tag.GetValue
      YorTraceID := block.GetTraceID }

/-- The records the second loop appends for one updated block from
`diff.Added`, after the stable sort by key. -/
def updatedBlockAddedRecords (block : Block) : List TagRecord :=
  (sortAddedByKey block.CalculateTagsDiff.Added).map fun val =>
    { File := block.GetFilePath
      ResourceID := block.GetResourceID
      TagKey := val.GetKey
      OldValue := ""
      UpdatedValue := val.GetValue
      YorTraceID := block.GetTraceID }

/-- The records the second loop appends for one updated block from
`diff.Updated`, after the stable sort by key. -/
def updatedBlockChangedRecords (block : Block) : List TagRecord :=
  (sortUpdatedByKey block.CalculateTagsDiff.Updated).map fun val =>
    { File := block.GetFilePath
      ResourceID := block.GetResourceID
      TagKey := val.Key
      OldValue := val.PrevValue
      UpdatedValue := val.NewValue
      YorTraceID := block.GetTraceID }

/-- One updated block's full contribution: its added records, then its
changed records (the order of the two loops in the source). -/
def updatedBlockRecords (block : Block) : List TagRecord :=
  updatedBlockAddedRecords block ++ updatedBlockChangedRecords block

/-- `ReportService.CreateReport`, with the accumulator singleton
(`TagChangeAccumulatorInstance`) made an explicit argument. The method
overwrites `r.report` field by field: `Summary` from the three list
lengths, then `NewResourceTags` rebuilt from `[]TagRecord{}` by the first
loop, then `UpdatedResourceTags` rebuilt from `[]TagRecord{}` by the
second loop. Sequential appends over a loop are the concatenation of the
per-iteration contributions. -/
def ReportService.CreateReport (r : ReportService)
    (changesAccumulator : TagChangeAccumulator) : ReportService :=
  let rep0 := r.report
  let rep1 := { rep0 with Summary :=
    { Scanned := (changesAccumulator.ScannedBlocks.length : Int)
      NewResources := (changesAccumulator.NewBlockTraces.length : Int)
      UpdatedResources := (changesAccumulator.UpdatedBlockTraces.length : Int) } }
  let rep2 := { rep1 with NewResourceTags :=
    (changesAccumulator.NewBlockTraces.map newBlockRecords).flatten }
  let rep3 := { rep2 with UpdatedResourceTags :=
    (changesAccumulator.UpdatedBlockTraces.map updatedBlockRecords).flatten }
  { r with report := rep3 }

/-- The report value `CreateReport` builds (it depends only on the
accumulator, as proved below). -/
def createReport (changesAccumulator : TagChangeAccumulator) : Report :=
  { Summary :=
      { Scanned := (changesAccumulator.ScannedBlocks.length : Int)
        NewResources := (changesAccumulator.NewBlockTraces.length : Int)
        UpdatedResources := (changesAccumulator.UpdatedBlockTraces.length : Int) }
    NewResourceTags := (changesAccumulator.NewBlockTraces.map newBlockRecords).flatten
    UpdatedResourceTags := (changesAccumulator.UpdatedBlockTraces.map updatedBlockRecords).flatten }

/-- Number of distinct resource identifiers appearing in a record list. -/
def distinctResourceCount (recs : List TagRecord) : Nat :=
  (recs.map TagRecord.ResourceID).dedup.length

/-! ## JSON serialization (`AsJSONBytes`, i.e. `json.MarshalIndent(r, "", "    ")`)

`encoding/json` output for the fixed `Report` struct is deterministic:
object keys in struct-field order using the `json:"..."` tags, 4-space
indentation, empty slices as `[]` on one line, strings quoted with the
encoder's escaping (`"` and `\` escaped, control characters and — with the
default HTML escaping — `<`, `>`, `&` as `\uXXXX` with lowercase hex, plus
U+2028/U+2029). -/

/-- Lowercase hex digit, as Go's JSON encoder emits. -/
def hexDigitChar (n : Nat) : Char :=
  if n < 10 then Char.ofNat (48 + n) else Char.ofNat (87 + n)

/-- The escape sequence Go's JSON encoder (default `SetEscapeHTML(true)`)
emits for one character. -/
def escapeJSONChar (c : Char) : String :=
  if c = '\x22' then "\\\x22"
  else if c = '\\' then "\\\\"
  else if c = '\n' then "\\n"
  else if c = '\r' then "\\r"
  else if c = '\t' then "\\t"
  else if c = '<' then "\\u003c"
  else if c = '>' then "\\u003e"
  else if c = '&' then "\\u0026"
  else if c.toNat < 32 then
    "\\u00" ++ String.mk [hexDigitChar (c.toNat / 16), hexDigitChar (c.toNat % 16)]
  else if c.toNat = 8232 then "\\u2028"
  else if c.toNat = 8233 then "\\u2029"
  else String.mk [c]

/-- A Go JSON string literal: quotes around the escaped contents. -/
def quoteJSON (s : String) : String :=
  "\x22" ++ String.join (s.data.map escapeJSONChar) ++ "\x22"

/-- `n` levels of the 4-space indent unit passed to `MarshalIndent`. -/
def jsonPad (n : Nat) : String :=
  String.join (List.replicate n "    ")

/-- The text `MarshalIndent` produces for one `TagRecord`, as an element
of an array nested one level inside the top object (so its own braces sit
at indent level 2 and its fields at level 3). -/
def renderTagRecord (t : TagRecord) : String :=
  "\x7b\n" ++
  jsonPad 3 ++ quoteJSON "file" ++ ": " ++ quoteJSON t.File ++ ",\n" ++
  jsonPad 3 ++ quoteJSON "resourceId" ++ ": " ++ quoteJSON t.ResourceID ++ ",\n" ++
  jsonPad 3 ++ quoteJSON "key" ++ ": " ++ quoteJSON t.TagKey ++ ",\n" ++
  jsonPad 3 ++ quoteJSON "oldValue" ++ ": " ++ quoteJSON t.OldValue ++ ",\n" ++
  jsonPad 3 ++ quoteJSON "updatedValue" ++ ": " ++ quoteJSON t.UpdatedValue ++ ",\n" ++
  jsonPad 3 ++ quoteJSON "yorTraceId" ++ ": " ++ quoteJSON t.YorTraceID ++ "\n" ++
  jsonPad 2 ++ "\x7d"

/-- A record array at indent level 1: `[]` when empty, otherwise elements
at level 2 and the closing bracket at level 1 (Go's `MarshalIndent`). -/
def renderTagRecordArray (ts : List TagRecord) : String :=
  match ts with
  | [] => "[]"
  | _ =>
    "[\n" ++
    String.intercalate ",\n" (ts.map fun t => jsonPad 2 ++ renderTagRecord t) ++
    "\n" ++ jsonPad 1 ++ "]"

/-- The `summary` object, nested at level 1. -/
def renderSummary (s : ReportSummary) : String :=
  "\x7b\n" ++
  jsonPad 2 ++ quoteJSON "scanned" ++ ": " ++ toString s.Scanned ++ ",\n" ++
  jsonPad 2 ++ quoteJSON "newResources" ++ ": " ++ toString s.NewResources ++ ",\n" ++
  jsonPad 2 ++ quoteJSON "updatedResources" ++ ": " ++ toString s.UpdatedResources ++ "\n" ++
  jsonPad 1 ++ "\x7d"

/-- The full `MarshalIndent(r, "", "    ")` document for a `Report`. -/
def renderReport (r : Report) : String :=
  "\x7b\n" ++
  jsonPad 1 ++ quoteJSON "summary" ++ ": " ++ renderSummary r.Summary ++ ",\n" ++
  jsonPad 1 ++ quoteJSON "newResourceTags" ++ ": " ++
    renderTagRecordArray r.NewResourceTags ++ ",\n" ++
  jsonPad 1 ++ quoteJSON "updatedResourceTags" ++ ": " ++
    renderTagRecordArray r.UpdatedResourceTags ++ "\n" ++
  "\x7d"

/-- `json.MarshalIndent` applied to a `Report`. Marshalling can only fail
on unsupported types (channels, functions, cycles, non-finite floats);
`Report` is built from `int`, `string` and slices of a string-field
struct, so the encoder is total and never returns an error for it. -/
def marshalIndentReport (r : Report) : Except String String :=
  Except.ok (renderReport r)

/-- `Report.AsJSONBytes`: `jr, err := json.MarshalIndent(…)`; on error
return `nil, err`, otherwise `jr, nil`. -/
def Report.AsJSONBytes (r : Report) : Except String String :=
  match marshalIndentReport r with
  | Except.error err => Except.error err
  | Except.ok jr => Except.ok jr

/-! ### The structured document as a JSON value

For the round-trip property the document is viewed at the JSON-value
level: `encodeReportJSON` is the tree `AsJSONBytes` serializes (field
names and order exactly the struct's `json` tags) and the decoders model
`encoding/json` unmarshalling of such documents back into the structs. -/

/-- A JSON value. -/
inductive JVal where
  | null : JVal
  | str : String → JVal
  | int : Int → JVal
  | arr : List JVal → JVal
  | obj : List (String × JVal) → JVal

/-- Field lookup in a JSON object's field list. -/
def getJSONField : List (String × JVal) → String → Option JVal
  | [], _ => none
  | (k, v) :: rest, key => if k = key then some v else getJSONField rest key

def JVal.asStr : JVal → Option String
  | JVal.str s => some s
  | _ => none

def JVal.asInt : JVal → Option Int
  | JVal.int n => some n
  | _ => none

def JVal.asArr : JVal → Option (List JVal)
  | JVal.arr xs => some xs
  | _ => none

def JVal.asObj : JVal → Option (List (String × JVal))
  | JVal.obj fs => some fs
  | _ => none

/-- The JSON value for one `TagRecord` (tags of the Go struct, declared
order). -/
def encodeTagRecordJSON (t : TagRecord) : JVal :=
  JVal.obj
    [("file", JVal.str t.File),
     ("resourceId", JVal.str t.ResourceID),
     ("key", JVal.str t.TagKey),
     ("oldValue", JVal.str t.OldValue),
     ("updatedValue", JVal.str t.UpdatedValue),
     ("yorTraceId", JVal.str t.YorTraceID)]

/-- The JSON value for the `summary` object. -/
def encodeSummaryJSON (s : ReportSummary) : JVal :=
  JVal.obj
    [("scanned", JVal.int s.Scanned),
     ("newResources", JVal.int s.NewResources),
     ("updatedResources", JVal.int s.UpdatedResources)]

/-- The JSON document for a `Report`. -/
def encodeReportJSON (r : Report) : JVal :=
  JVal.obj
    [("summary", encodeSummaryJSON r.Summary),
     ("newResourceTags", JVal.arr (r.NewResourceTags.map encodeTagRecordJSON)),
     ("updatedResourceTags", JVal.arr (r.UpdatedResourceTags.map encodeTagRecordJSON))]

/-- Unmarshalling one record object. -/
def decodeTagRecordJSON (j : JVal) : Option TagRecord := do
  let fs ← j.asObj
  let file ← (getJSONField fs "file").bind JVal.asStr
  let rid ← (getJSONField fs "resourceId").bind JVal.asStr
  let key ← (getJSONField fs "key").bind JVal.asStr
  let oldV ← (getJSONField fs "oldValue").bind JVal.asStr
  let newV ← (getJSONField fs "updatedValue").bind JVal.asStr
  let trace ← (getJSONField fs "yorTraceId").bind JVal.asStr
  pure { File := file, ResourceID := rid, TagKey := key,
         OldValue := oldV, UpdatedValue := newV, YorTraceID := trace }

/-- Unmarshalling the `summary` object. -/
def decodeSummaryJSON (j : JVal) : Option ReportSummary := do
  let fs ← j.asObj
  let sc ← (getJSONField fs "scanned").bind JVal.asInt
  let nw ← (getJSONField fs "newResources").bind JVal.asInt
  let up ← (getJSONField fs "updatedResources").bind JVal.asInt
  pure { Scanned := sc, NewResources := nw, UpdatedResources := up }

/-! ## Error propagation model (`AsJSONBytes` / `PrintJSONToFile`)

For the propagation policy the marshalling and file-writing steps are
abstracted by their results: `marshalRes` stands for what
`json.MarshalIndent` returned and `writeFile` for what `os.WriteFile`
returns on given contents. On the Go side a failed marshal yields a `nil`
byte slice, modelled as the empty string. `PrintJSONToFile` has no return
value; its observable outcome is the list of warnings passed to
`logger.Warning` (a two-argument call is modelled as the joined text). -/

/-- `AsJSONBytes` over an abstract marshal result: `if err != nil { return
nil, err }; return jr, nil`. -/
def asJSONBytesWith (marshalRes : Except String String) : Except String String :=
  match marshalRes with
  | Except.error err => Except.error err
  | Except.ok jr => Except.ok jr

/-- The byte slice a Go caller sees: the bytes, or `nil` (empty) when the
marshal failed. -/
def bytesOrNil : Except String String → String
  | Except.error _ => ""
  | Except.ok jr => jr

/-- The two `logger.Warning` calls `PrintJSONToFile` can make:
`"Failed to create report as JSON"` and `"Failed to write to JSON file"`
with `err.Error()` as second argument. -/
inductive ReportWarning where
  | createJSONFailed : ReportWarning
  | writeJSONFailed : String → ReportWarning
  deriving DecidableEq

/-- `ReportService.PrintJSONToFile`: marshal, warn on marshal failure,
then unconditionally write and warn on write failure; return normally in
every case. The returned value is the warning log — the function's
codomain has no error component, mirroring the Go signature
`func (r *ReportService) PrintJSONToFile(file string)`. -/
def printJSONToFile (marshalRes : Except String String)
    (writeFile : String → Except String Unit) : List ReportWarning :=
  let jres := asJSONBytesWith marshalRes
  let log1 := match jres with
    | Except.error _ => [ReportWarning.createJSONFailed]
    | Except.ok _ => []
  let jr := bytesOrNil jres
  let log2 := match writeFile jr with
    | Except.error e => [ReportWarning.writeJSONFailed e]
    | Except.ok _ => []
  log1 ++ log2

/-! ## State-threading form of `CreateReport`

To express that building the report leaves the accumulator unchanged, the
two loops are written as functions that also return the block list they
iterated over, exactly as the iteration leaves it: each iteration reads
the block's observations and lets the in-place `sort.SliceStable` act on
the fresh diff value returned by `CalculateTagsDiff`, never writing
through the block handle. -/

/-- The `NewBlockTraces` loop, threading the iterated blocks. -/
def processNewBlocksLoop : List Block → List Block × List TagRecord
  | [] => ([], [])
  | block :: rest =>
    let recs := newBlockRecords block
    let (restBlocks, restRecs) := processNewBlocksLoop rest
    (block :: restBlocks, recs ++ restRecs)

/-- The `UpdatedBlockTraces` loop, threading the iterated blocks. -/
def processUpdatedBlocksLoop : List Block → List Block × List TagRecord
  | [] => ([], [])
  | block :: rest =>
    let recs := updatedBlockRecords block
    let (restBlocks, restRecs) := processUpdatedBlocksLoop rest
    (block :: restBlocks, recs ++ restRecs)

/-- `CreateReport` with the accumulator state it leaves behind made
explicit. -/
def createReportTracked (r : ReportService) (acc : TagChangeAccumulator) :
    ReportService × TagChangeAccumulator :=
  let resNew := processNewBlocksLoop acc.NewBlockTraces
  let resUpd := processUpdatedBlocksLoop acc.UpdatedBlockTraces
  ({ r with report :=
      { Summary :=
          { Scanned := (acc.ScannedBlocks.length : Int)
            NewResources := (acc.NewBlockTraces.length : Int)
            UpdatedResources := (acc.UpdatedBlockTraces.length : Int) }
        NewResourceTags := resNew.2
        UpdatedResourceTags := resUpd.2 } },
   { ScannedBlocks := acc.ScannedBlocks
     NewBlockTraces := resNew.1
     UpdatedBlockTraces := resUpd.1 })

/-- Unmarshalling a whole `Report` document. -/
def decodeReportJSON (j : JVal) : Option Report := do
  let fs ← j.asObj
  let summary ← (getJSONField fs "summary").bind decodeSummaryJSON
  let newArr ← (getJSONField fs "newResourceTags").bind JVal.asArr
  let newRecs ← newArr.mapM decodeTagRecordJSON
  let updArr ← (getJSONField fs "updatedResourceTags").bind JVal.asArr
  let updRecs ← updArr.mapM decodeTagRecordJSON
  pure { Summary := summary, NewResourceTags := newRecs,
         UpdatedResourceTags := updRecs }


/-! ## Helper lemmas -/

theorem createReport_report (s : ReportService) (acc : TagChangeAccumulator) :
    (s.CreateReport acc).report = createReport acc := rfl

theorem processNewBlocksLoop_eq (bs : List Block) :
    processNewBlocksLoop bs = (bs, (bs.map newBlockRecords).flatten) := by
  induction bs with
  | nil => rfl
  | cons b rest ih => simp [processNewBlocksLoop, ih]

theorem processUpdatedBlocksLoop_eq (bs : List Block) :
    processUpdatedBlocksLoop bs = (bs, (bs.map updatedBlockRecords).flatten) := by
  induction bs with
  | nil => rfl
  | cons b rest ih => simp [processUpdatedBlocksLoop, ih]

instance : IsTotal Tag (fun a b => a.GetKey ≤ b.GetKey) :=
  ⟨fun a b => le_total a.GetKey b.GetKey⟩

instance : IsTrans Tag (fun a b => a.GetKey ≤ b.GetKey) :=
  ⟨fun _ _ _ h1 h2 => le_trans h1 h2⟩

instance : IsTotal UpdatedTagEntry (fun a b => a.Key ≤ b.Key) :=
  ⟨fun a b => le_total a.Key b.Key⟩

instance : IsTrans UpdatedTagEntry (fun a b => a.Key ≤ b.Key) :=
  ⟨fun _ _ _ h1 h2 => le_trans h1 h2⟩

theorem sorted_sortAddedByKey (l : List Tag) :
    (sortAddedByKey l).Sorted (fun a b => a.GetKey ≤ b.GetKey) :=
  List.sorted_insertionSort _ l

theorem sorted_sortUpdatedByKey (l : List UpdatedTagEntry) :
    (sortUpdatedByKey l).Sorted (fun a b => a.Key ≤ b.Key) :=
  List.sorted_insertionSort _ l

theorem sorted_updatedBlockAddedRecords (block : Block) :
    (updatedBlockAddedRecords block).Sorted (fun a b => a.TagKey ≤ b.TagKey) :=
  List.Pairwise.map _ (fun _ _ h => h)
    (sorted_sortAddedByKey block.CalculateTagsDiff.Added)

theorem sorted_updatedBlockChangedRecords (block : Block) :
    (updatedBlockChangedRecords block).Sorted (fun a b => a.TagKey ≤ b.TagKey) :=
  List.Pairwise.map _ (fun _ _ h => h)
    (sorted_sortUpdatedByKey block.CalculateTagsDiff.Updated)

theorem decode_encode_tagRecord (t : TagRecord) :
    decodeTagRecordJSON (encodeTagRecordJSON t) = some t := rfl

theorem mapM_decode_encode (l : List TagRecord) :
    (l.map encodeTagRecordJSON).mapM decodeTagRecordJSON = some l := by
  induction l with
  | nil => rfl
  | cons t rest ih =>
    simp only [List.map_cons, List.mapM_cons, decode_encode_tagRecord, ih]
    rfl

theorem toFinset_map_const {α β : Type} [DecidableEq β] (g : α → β) (c : β) :
    ∀ l : List α, l ≠ [] → (∀ x ∈ l, g x = c) → (l.map g).toFinset = {c} := by
  intro l
  induction l with
  | nil => intro hne _; cases hne rfl
  | cons a rest ih =>
    intro _ hall
    have ha : g a = c := hall a (by simp)
    cases rest with
    | nil => simp [ha]
    | cons b rest2 =>
      have hr := ih (by simp) (fun x hx => hall x (by simp [hx]))
      rw [List.map_cons, List.toFinset_cons, hr, ha]
      exact Finset.insert_eq_self.mpr (Finset.mem_singleton_self c)

theorem toFinset_resourceIDs_flatten (f : Block → List TagRecord)
    (hid : ∀ b r, r ∈ f b → r.ResourceID = b.GetResourceID) :
    ∀ blocks : List Block, (∀ b ∈ blocks, f b ≠ []) →
    ((blocks.map f).flatten.map TagRecord.ResourceID).toFinset =
      (blocks.map Block.GetResourceID).toFinset := by
  intro blocks
  induction blocks with
  | nil => intro _; rfl
  | cons b rest ih =>
    intro hne
    have h1 : ((f b).map TagRecord.ResourceID).toFinset = {b.GetResourceID} :=
      toFinset_map_const _ _ (f b) (hne b (by simp)) (fun r hr => hid b r hr)
    have h2 := ih (fun x hx => hne x (by simp [hx]))
    rw [List.map_cons, List.flatten_cons, List.map_append, List.toFinset_append, h1, h2,
      List.map_cons, List.toFinset_cons, Finset.insert_eq]

theorem distinctResourceCount_flatten (f : Block → List TagRecord)
    (blocks : List Block)
    (hid : ∀ b r, r ∈ f b → r.ResourceID = b.GetResourceID)
    (hne : ∀ b ∈ blocks, f b ≠ [])
    (hnodup : (blocks.map Block.GetResourceID).Nodup) :
    distinctResourceCount ((blocks.map f).flatten) = blocks.length := by
  unfold distinctResourceCount
  rw [← List.card_toFinset, toFinset_resourceIDs_flatten f hid blocks hne,
    List.toFinset_card_of_nodup hnodup, List.length_map]

theorem newBlockRecords_resourceID (b : Block) (r : TagRecord)
    (hr : r ∈ newBlockRecords b) : r.ResourceID = b.GetResourceID := by
  simp [newBlockRecords] at hr
  obtain ⟨t, _, rfl⟩ := hr
  rfl

theorem updatedBlockRecords_resourceID (b : Block) (r : TagRecord)
    (hr : r ∈ updatedBlockRecords b) : r.ResourceID = b.GetResourceID := by
  simp [updatedBlockRecords, updatedBlockAddedRecords,
    updatedBlockChangedRecords] at hr
  rcases hr with ⟨t, _, rfl⟩ | ⟨t, _, rfl⟩ <;> rfl

theorem newBlockRecords_ne_nil (b : Block) (h : b.GetNewTags ≠ []) :
    newBlockRecords b ≠ [] := by
  simpa [newBlockRecords] using h

/-! ## Fixtures -/

/-- A zero-valued service, as the package-level singleton starts
(`ReportServiceInst = &ReportService{}`). -/
def initialService : ReportService := ⟨⟨⟨0, 0, 0⟩, [], []⟩⟩

/-- A newly-traced block carrying no tags at all. -/
def zeroTagBlock : Block :=
  { filePath := "main.tf", resourceID := "aws_s3_bucket.b", traceID := "trace0",
    newTags := [], tagsDiff := ⟨[], []⟩ }

/-- An accumulator whose only content is `zeroTagBlock` among the newly
traced blocks. -/
def zeroTagAcc : TagChangeAccumulator := ⟨[], [zeroTagBlock], []⟩

/-- The updated block of the spec's concrete scenario. -/
def scenarioBlock : Block :=
  { filePath := "main.tf", resourceID := "aws_s3_bucket.data",
    traceID := "yor_trace_123", newTags := [],
    tagsDiff :=
      { Added := [⟨"env", "prod"⟩], Updated := [⟨"owner", "alice", "bob"⟩] } }

/-- The accumulator of the spec's concrete scenario. -/
def scenarioAcc : TagChangeAccumulator := ⟨[], [], [scenarioBlock]⟩

/-- An accumulator with all three collections empty. -/
def emptyAcc : TagChangeAccumulator := ⟨[], [], []⟩

/-- A new block with one tag, used to instantiate hypotheses. -/
def sampleNewBlock : Block :=
  { filePath := "a.tf", resourceID := "res_new", traceID := "t1",
    newTags := [⟨"env", "dev"⟩], tagsDiff := ⟨[], []⟩ }

/-- An updated block with a nonempty diff, used to instantiate hypotheses. -/
def sampleUpdBlock : Block :=
  { filePath := "b.tf", resourceID := "res_upd", traceID := "t2",
    newTags := [], tagsDiff := ⟨[⟨"team", "core"⟩], [⟨"owner", "x", "y"⟩]⟩ }

/-- An accumulator on which the distinct-resource counts agree with the
summary counters. -/
def sampleAcc : TagChangeAccumulator :=
  ⟨[sampleNewBlock, sampleUpdBlock], [sampleNewBlock], [sampleUpdBlock]⟩

/-! ## Claims -/

/-- C1, counterexample: the code sets `summary.newResources` to
`len(changesAccumulator.NewBlockTraces)`, the number of blocks, not the
number of distinct resource identifiers appearing in `newResourceTags`.
On an accumulator whose single new block carries no tags, the summary
says 1 while `newResourceTags` is empty and so has 0 distinct resource
identifiers. -/
theorem c1_counterexample :
    (initialService.CreateReport zeroTagAcc).report.Summary.NewResources = 1 ∧
    (initialService.CreateReport zeroTagAcc).report.NewResourceTags = [] ∧
    distinctResourceCount
      (initialService.CreateReport zeroTagAcc).report.NewResourceTags = 0 ∧
    ¬ ((initialService.CreateReport zeroTagAcc).report.Summary.NewResources =
        (distinctResourceCount
          (initialService.CreateReport zeroTagAcc).report.NewResourceTags : Int)) := by
  refine ⟨rfl, rfl, rfl, ?_⟩
  decide

/-- C1, amended: `summary.newResources` equals the number of blocks in
the accumulator's `NewBlockTraces` (and `updatedResources` the number in
`UpdatedBlockTraces`); these equal the number of distinct resource
identifiers appearing in the corresponding record sequences provided
every such block contributes at least one record and the blocks'
resource identifiers are pairwise distinct — blocks contributing zero
tag records (or sharing an identifier) make the counts diverge. -/
theorem c1_summary_counts (s : ReportService) (acc : TagChangeAccumulator)
    (hNewNe : ∀ b ∈ acc.NewBlockTraces, b.GetNewTags ≠ [])
    (hNewNodup : (acc.NewBlockTraces.map Block.GetResourceID).Nodup)
    (hUpdNe : ∀ b ∈ acc.UpdatedBlockTraces, updatedBlockRecords b ≠ [])
    (hUpdNodup : (acc.UpdatedBlockTraces.map Block.GetResourceID).Nodup) :
    (s.CreateReport acc).report.Summary.NewResources =
      (acc.NewBlockTraces.length : Int) ∧
    (s.CreateReport acc).report.Summary.UpdatedResources =
      (acc.UpdatedBlockTraces.length : Int) ∧
    distinctResourceCount (s.CreateReport acc).report.NewResourceTags =
      acc.NewBlockTraces.length ∧
    distinctResourceCount (s.CreateReport acc).report.UpdatedResourceTags =
      acc.UpdatedBlockTraces.length := by
  refine ⟨rfl, rfl, ?_, ?_⟩
  · exact distinctResourceCount_flatten newBlockRecords acc.NewBlockTraces
      newBlockRecords_resourceID
      (fun b hb => newBlockRecords_ne_nil b (hNewNe b hb)) hNewNodup
  · exact distinctResourceCount_flatten updatedBlockRecords acc.UpdatedBlockTraces
      updatedBlockRecords_resourceID hUpdNe hUpdNodup

/-- C1, witness: the amended statement instantiated on `sampleAcc`. -/
theorem c1_summary_counts_witness :
    ((∀ b ∈ sampleAcc.NewBlockTraces, b.GetNewTags ≠ []) ∧
     (sampleAcc.NewBlockTraces.map Block.GetResourceID).Nodup ∧
     (∀ b ∈ sampleAcc.UpdatedBlockTraces, updatedBlockRecords b ≠ []) ∧
     (sampleAcc.UpdatedBlockTraces.map Block.GetResourceID).Nodup) ∧
    ((initialService.CreateReport sampleAcc).report.Summary.NewResources =
      (sampleAcc.NewBlockTraces.length : Int) ∧
    (initialService.CreateReport sampleAcc).report.Summary.UpdatedResources =
      (sampleAcc.UpdatedBlockTraces.length : Int) ∧
    distinctResourceCount (initialService.CreateReport sampleAcc).report.NewResourceTags =
      sampleAcc.NewBlockTraces.length ∧
    distinctResourceCount (initialService.CreateReport sampleAcc).report.UpdatedResourceTags =
      sampleAcc.UpdatedBlockTraces.length) :=
  ⟨⟨by decide, by decide, by decide, by decide⟩,
   c1_summary_counts initialService sampleAcc
     (by decide) (by decide) (by decide) (by decide)⟩

/-- C2: within every updated block's contribution, the records built from
`diff.Added` are sorted ascending by tag key and the records built from
`diff.Updated` are sorted ascending by tag key, the two groups sorted
independently and concatenated added-first; the report's
`updatedResourceTags` is the concatenation of these per-block
contributions. -/
theorem c2_updated_block_ordering (s : ReportService)
    (acc : TagChangeAccumulator) :
    (s.CreateReport acc).report.UpdatedResourceTags =
      (acc.UpdatedBlockTraces.map updatedBlockRecords).flatten ∧
    ∀ block : Block,
      updatedBlockRecords block =
        updatedBlockAddedRecords block ++ updatedBlockChangedRecords block ∧
      (updatedBlockAddedRecords block).Sorted (fun a b => a.TagKey ≤ b.TagKey) ∧
      (updatedBlockChangedRecords block).Sorted (fun a b => a.TagKey ≤ b.TagKey) :=
  ⟨rfl, fun block =>
    ⟨rfl, sorted_updatedBlockAddedRecords block,
      sorted_updatedBlockChangedRecords block⟩⟩

/-- C3: for every newly-traced block, `CreateReport` emits exactly one
record per tag of `GetNewTags()`, pairwise in the accumulator's own
enumeration order (no sort), each with `OldValue = ""` and
`UpdatedValue` the tag's value; the report's `newResourceTags` is the
concatenation of these per-block contributions. -/
theorem c3_new_block_records (s : ReportService) (acc : TagChangeAccumulator) :
    (s.CreateReport acc).report.NewResourceTags =
      (acc.NewBlockTraces.map newBlockRecords).flatten ∧
    ∀ block : Block,
      (newBlockRecords block).length = block.GetNewTags.length ∧
      List.Forall₂ (fun tag rec =>
          rec.File = block.GetFilePath ∧ rec.ResourceID = block.GetResourceID ∧
          rec.TagKey = tag.GetKey ∧ rec.OldValue = "" ∧
          rec.UpdatedValue = tag.GetValue ∧ rec.YorTraceID = block.GetTraceID)
        block.GetNewTags (newBlockRecords block) := by
  refine ⟨rfl, fun block => ⟨by simp [newBlockRecords], ?_⟩⟩
  unfold newBlockRecords
  rw [List.forall₂_map_right_iff]
  exact List.forall₂_same.mpr fun x _ => ⟨rfl, rfl, rfl, rfl, rfl, rfl⟩

/-- C4: on the spec's concrete scenario — one updated block, file
`main.tf`, resource `aws_s3_bucket.data`, trace `yor_trace_123`, diff
`Added = [env ↦ prod]`, `Updated = [owner: alice ↦ bob]` —
`CreateReport` produces exactly the two records, added before updated. -/
theorem c4_concrete_scenario :
    (initialService.CreateReport scenarioAcc).report.UpdatedResourceTags =
      [⟨"main.tf", "aws_s3_bucket.data", "env", "", "prod", "yor_trace_123"⟩,
       ⟨"main.tf", "aws_s3_bucket.data", "owner", "alice", "bob", "yor_trace_123"⟩] ∧
    (initialService.CreateReport scenarioAcc).report.NewResourceTags = [] :=
  ⟨rfl, rfl⟩

/-- C5: an accumulator with no scanned, new or updated blocks yields the
all-zero summary and two empty record sequences, and the serialized
document contains `[]` for both arrays (at the byte level and at the
JSON-value level), never `null` or an omitted field. -/
theorem c5_empty_state :
    (initialService.CreateReport emptyAcc).report =
      { Summary := ⟨0, 0, 0⟩, NewResourceTags := [], UpdatedResourceTags := [] } ∧
    (initialService.CreateReport emptyAcc).report.AsJSONBytes =
      Except.ok ("\x7b\n    \"summary\": \x7b\n        \"scanned\": 0,\n        \"newResources\": 0,\n        \"updatedResources\": 0\n    \x7d,\n    \"newResourceTags\": [],\n    \"updatedResourceTags\": []\n\x7d") ∧
    encodeReportJSON (initialService.CreateReport emptyAcc).report =
      JVal.obj
        [("summary", JVal.obj
            [("scanned", JVal.int 0), ("newResources", JVal.int 0),
             ("updatedResources", JVal.int 0)]),
         ("newResourceTags", JVal.arr []),
         ("updatedResourceTags", JVal.arr [])] :=
  ⟨rfl, rfl, rfl⟩

theorem decode_encode_summary (s : ReportSummary) :
    decodeSummaryJSON (encodeSummaryJSON s) = some s := rfl

theorem mapM_loop_decode_encode (l : List TagRecord) :
    List.mapM.loop decodeTagRecordJSON (l.map encodeTagRecordJSON) [] = some l :=
  mapM_decode_encode l

/-- C6: encoding a `Report` to the structured document and decoding the
document back yields the original `Report`, field for field. -/
theorem c6_json_round_trip (r : Report) :
    decodeReportJSON (encodeReportJSON r) = some r := by
  obtain ⟨⟨sc, nw, up⟩, nts, uts⟩ := r
  simp [decodeReportJSON, encodeReportJSON, getJSONField, JVal.asObj,
    JVal.asArr, decode_encode_summary, mapM_decode_encode,
    mapM_loop_decode_encode]

/-- C7: building the report twice from an unchanged accumulator snapshot
yields structurally equal reports; the stored report is fully rebuilt
from the accumulator alone, independent of the service's previous
contents. -/
theorem c7_idempotent_rebuild (s1 s2 : ReportService)
    (acc : TagChangeAccumulator) :
    (s1.CreateReport acc).report = createReport acc ∧
    (s1.CreateReport acc).report = (s2.CreateReport acc).report ∧
    ((s1.CreateReport acc).CreateReport acc).report = (s1.CreateReport acc).report :=
  ⟨rfl, rfl, rfl⟩

/-- C8: `AsJSONBytes` returns the marshalled bytes or propagates the
marshal error unchanged to its caller, while `PrintJSONToFile` converts
both serialization and write failures into logged warnings and returns
normally (its codomain is the warning log, with no error component):
the log is empty exactly when both steps succeeded, holds the
serialization warning exactly when marshalling failed, and holds the
write warning exactly when `os.WriteFile` failed. -/
theorem c8_error_propagation (m : Except String String)
    (w : String → Except String Unit) :
    asJSONBytesWith m = m ∧
    (ReportWarning.createJSONFailed ∈ printJSONToFile m w ↔
      ∃ e, m = Except.error e) ∧
    ((∃ e, ReportWarning.writeJSONFailed e ∈ printJSONToFile m w) ↔
      ∃ e, w (bytesOrNil m) = Except.error e) ∧
    (printJSONToFile m w = [] ↔
      (∃ b, m = Except.ok b) ∧ ∃ u, w (bytesOrNil m) = Except.ok u) := by
  rcases m with e | b
  · rcases hw : w "" with e2 | u <;>
      simp [printJSONToFile, asJSONBytesWith, bytesOrNil, hw]
  · rcases hw : w b with e2 | u <;>
      simp [printJSONToFile, asJSONBytesWith, bytesOrNil, hw]

/-- C9: `CreateReport` leaves the accumulator exactly as it found it:
the state-threading form of the builder returns the accumulator
unchanged (the loops only read the blocks; the in-place sorts act on the
fresh diff values `CalculateTagsDiff` returns), and its service
component is the ordinary `CreateReport` result. -/
theorem c9_accumulator_unchanged (s : ReportService)
    (acc : TagChangeAccumulator) :
    (createReportTracked s acc).2 = acc ∧
    (createReportTracked s acc).1 = s.CreateReport acc := by
  obtain ⟨sc, nb, ub⟩ := acc
  constructor
  · simp [createReportTracked, processNewBlocksLoop_eq, processUpdatedBlocksLoop_eq]
  · simp [createReportTracked, processNewBlocksLoop_eq,
      processUpdatedBlocksLoop_eq, ReportService.CreateReport]

/-- C10: marshalling a `Report` never fails — `AsJSONBytes` always
returns the rendered document, a non-empty byte sequence, and never its
error branch. -/
theorem c10_serialization_total (r : Report) :
    r.AsJSONBytes = Except.ok (renderReport r) ∧
    0 < (renderReport r).length := by
  constructor
  · rfl
  · have h2 : ("\x7b\n" : String).length = 2 := by decide
    simp only [renderReport, String.length_append, h2]
    omega
